import Mathlib

/-
Verification of the cli_manager registry-and-dispatch core
(src/cli_manager.py) via a shallow embedding in Lean.

Strings are Lean `String`s; Python JSON values are the inductive `Json`;
Python dicts are association lists with first-occurrence lookup and
in-place replacement, which coincides with Python dict semantics on
registries whose keys are distinct (`keysNodup`).
-/

set_option autoImplicit false

namespace CliManager

/-- Model of a Python value as stored in / read from the JSON registry file.
Numbers are modelled as integers (registry records never hold floats). -/
inductive Json where
  | null
  | bool (b : Bool)
  | num (n : Int)
  | str (s : String)
  | arr (elems : List Json)
  | obj (fields : List (String × Json))

/-- Python `v is None` on a JSON-modelled value. -/
def Json.isNull : Json → Bool
  | .null => true
  | _ => false

/-- A Python dict with string keys, as produced by `json.load` / `to_dict`. -/
abbrev Dict := List (String × Json)

/-- Python `d.get(k)` / `d[k]` lookup: first entry with the key. -/
def dictFind {α : Type} : List (String × α) → String → Option α
  | [], _ => none
  | (k', v) :: rest, k => if k' = k then some v else dictFind rest k

/-- Python `d.get(k)` with its `None` default, on JSON-valued dicts. -/
def dictGet (d : Dict) (k : String) : Json :=
  (dictFind d k).getD Json.null

/-- Python `d[k] = v`: replace the value at `k` in place, else append. -/
def dictSet {α : Type} : List (String × α) → String → α → List (String × α)
  | [], k, v => [(k, v)]
  | (k', v') :: rest, k, v =>
    if k' = k then (k, v) :: rest else (k', v') :: dictSet rest k v

/-- Number of entries of an association list carrying the key `k`. -/
def countKey {α : Type} (r : List (String × α)) (k : String) : Nat :=
  (r.filter (fun p => p.1 = k)).length

/-- The Python-dict well-formedness a real registry always has: keys are
pairwise distinct. -/
def keysNodup {α : Type} (r : List (String × α)) : Prop :=
  (r.map Prod.fst).Nodup

/-- Python `==` between a JSON-modelled value and a Python `str`:
true exactly when the value is that string. -/
def jsonEqStr (j : Json) (s : String) : Bool :=
  match j with
  | .str t => t = s
  | _ => false

/-- Python truthiness of an `Optional[str]`: `None` and `""` are falsy. -/
def optStrTruthy : Option String → Bool
  | none => false
  | some s => !(s = "")

/-- Serialization of an `Optional[str]` field: `None` becomes JSON null. -/
def optStrJson : Option String → Json
  | none => Json.null
  | some s => Json.str s

/-- Serialization of an `Optional[list]` field: `None` becomes JSON null. -/
def optListJson : Option (List Json) → Json
  | none => Json.null
  | some xs => Json.arr xs

/-- Dataclass `CommandArg` (src/cli_manager.py). The Python `default` field
has type `Any`; it is modelled as a JSON-serializable value. -/
structure CommandArg where
  name : String
  help : String := ""
  short : Option String := none
  type : String := "str"
  required : Bool := false
  default : Json := Json.null
  nargs : Option String := none
  choices : Option (List Json) := none
  action : Option String := none

/-- Python `asdict(self)` for `CommandArg`: all nine fields in declaration
order, each serialized. -/
def CommandArg.asdictPairs (a : CommandArg) : Dict :=
  [("name", Json.str a.name),
   ("help", Json.str a.help),
   ("short", optStrJson a.short),
   ("type", Json.str a.type),
   ("required", Json.bool a.required),
   ("default", a.default),
   ("nargs", optStrJson a.nargs),
   ("choices", optListJson a.choices),
   ("action", optStrJson a.action)]

/-- `CommandArg.to_dict`: `{k: v for k, v in asdict(self).items() if v is not None}`. -/
def CommandArg.to_dict (a : CommandArg) : Dict :=
  a.asdictPairs.filter (fun p => !p.2.isNull)

/-- Dataclass `Command` (src/cli_manager.py). -/
structure Command where
  name : String
  help : String
  handler : String
  args : List CommandArg := []

/-- `Command.to_dict`: all four keys, args serialized recursively. -/
def Command.to_dict (c : Command) : Dict :=
  [("name", Json.str c.name),
   ("help", Json.str c.help),
   ("handler", Json.str c.handler),
   ("args", Json.arr (c.args.map (fun a => Json.obj a.to_dict)))]

/-- Dataclass `ModuleRegistration` (src/cli_manager.py). -/
structure ModuleRegistration where
  module_name : String
  short_name : Option String := none
  description : String := ""
  commands : List Command := []

/-- `ModuleRegistration.to_dict`: all four keys, commands serialized
recursively; a `None` short_name is stored as JSON null. -/
def ModuleRegistration.to_dict (m : ModuleRegistration) : Dict :=
  [("module_name", Json.str m.module_name),
   ("short_name", optStrJson m.short_name),
   ("description", Json.str m.description),
   ("commands", Json.arr (m.commands.map (fun c => Json.obj c.to_dict)))]

/-- The on-disk registry: mapping from module key to serialized registration. -/
abbrev Registry := List (String × Dict)

/-- The short-name conflict scan of `CLIManager.register_module`: walk the
current entries in order; an entry other than the module's own key whose
stored `short_name` equals the incoming short name is a conflict (the Python
loop clears the name and breaks at the first such entry). -/
def shortNameConflict (key : String) (s : String) : Registry → Bool
  | [] => false
  | (k, d) :: rest =>
    if k ≠ key ∧ jsonEqStr (dictGet d "short_name") s then true
    else shortNameConflict key s rest

/-- The short-name conflict arbitration of `register_module`: when the
incoming registration's short_name is truthy and conflicts with another
entry, the registration's own `short_name` field is set to `None` in place. -/
def clearIfConflict (r : Registry) (reg : ModuleRegistration) : ModuleRegistration :=
  match reg.short_name with
  | none => reg
  | some s =>
    if s = "" then reg
    else if shortNameConflict reg.module_name s r then
      { reg with short_name := none }
    else reg

/-- `CLIManager.register_module`, load-mutate-save collapsed to a pure map on
the registry. The second component is the (possibly mutated) registration
object as the caller observes it after the call; the Python method finally
returns `True` unconditionally. -/
def registerModule (r : Registry) (reg : ModuleRegistration) : Registry × ModuleRegistration :=
  let reg' := clearIfConflict r reg
  (dictSet r reg.module_name reg'.to_dict, reg')

/-- Exceptions the modelled fragment of `_load_registry` can encounter.
`ioError` stands for the `OSError`/`IOError` family; `jsonDecodeError` for
`json.JSONDecodeError`; `unicodeDecodeError` for `UnicodeDecodeError`, which
in Python subclasses `ValueError` but neither of the two caught classes. -/
inductive PyExc where
  | ioError
  | jsonDecodeError
  | unicodeDecodeError
deriving DecidableEq

/-- State of the backing `commands.json` file as seen by one load:
absent, unreadable (open/read raises OSError), holding bytes that do not
decode as text, holding text that is not valid JSON, or holding a parsed
registry document. -/
inductive FileState where
  | absent
  | unreadable
  | undecodable
  | malformed (raw : String)
  | holds (r : Registry)

/-- Python `self._registry_file.exists()`. -/
def fsExists : FileState → Bool
  | .absent => false
  | _ => true

/-- The body of the `try` in `_load_registry`: `open(...)` followed by
`json.load(f)`, with the exception each failure mode raises. -/
def openAndParse : FileState → Except PyExc Registry
  | .absent => .error .ioError
  | .unreadable => .error .ioError
  | .undecodable => .error .unicodeDecodeError
  | .malformed _ => .error .jsonDecodeError
  | .holds r => .ok r

/-- The exception classes named by `except (json.JSONDecodeError, IOError)`
in `_load_registry`. `UnicodeDecodeError` is a `ValueError`, not an
`OSError` and not a `json.JSONDecodeError`, so it is not among them. -/
def caughtByLoad : PyExc → Bool
  | .ioError => true
  | .jsonDecodeError => true
  | .unicodeDecodeError => false

/-- `CLIManager._load_registry`: missing file short-circuits to `{}`; the
read-and-parse runs under a `try` whose `except` clause converts exactly
the `caughtByLoad` exceptions into `{}` (with a warning); any other
exception propagates to the caller (`.error`). -/
def loadRegistry (fs : FileState) : Except PyExc Registry :=
  if fsExists fs then
    match openAndParse fs with
    | .ok r => .ok r
    | .error e => if caughtByLoad e then .ok [] else .error e
  else .ok []

/-- On-disk contents observable while `_save_registry` runs: `open(path, "w")`
first truncates the target file in place, then `json.dump` writes the
serialized text into it, so a concurrent reader can observe the truncated
empty file before the dump completes. -/
def saveObservableContents (finalText : String) : List String :=
  ["", finalText]

/-- The `argparse.Namespace` fields `dispatch` reads: the selected module
token and command token (absent when no subcommand was chosen). -/
structure ParsedArgs where
  module : Option String
  command : Option String

/-- Outcome of calling a Python value returned by a handler through `int(...)`:
an `int` converts to itself; other modelled values raise. -/
inductive PyValue where
  | pynone
  | pyint (n : Int)
  | nonIntConvertible

/-- Python `int(result)` on a handler's return value, `none` meaning the
conversion raises. -/
def pyToInt : PyValue → Option Int
  | .pyint n => some n
  | _ => none

/-- Result of invoking a handler: it either raises or returns a value. -/
inductive HandlerResult where
  | raises
  | returns (v : PyValue)

/-- A resolved handler callable. -/
abbrev Handler := ParsedArgs → HandlerResult

/-- The import environment behind `importlib.import_module` and `getattr`:
a locator resolves to a unit or fails (ImportError); a symbol resolves
within a unit or fails (AttributeError). -/
structure Env where
  modules : String → Option (String → Option Handler)

/-- Split a character list at the last occurrence of a colon, the list model
of `handler_path.rsplit(":", 1)`; `none` when no colon occurs (in Python the
one-element result then fails tuple unpacking with `ValueError`). -/
def splitLastColon : List Char → Option (List Char × List Char)
  | [] => none
  | c :: rest =>
    match splitLastColon rest with
    | some (a, b) => some (c :: a, b)
    | none => if c = ':' then some ([], rest) else none

/-- `handler_path.rsplit(":", 1)` on strings, succeeding only with two parts. -/
def rsplitColon (s : String) : Option (String × String) :=
  (splitLastColon s.data).map (fun p => (String.mk p.1, String.mk p.2))

/-- `CLIManager.resolve_handler`: split on the last colon, import the
locator, look the symbol up; `ValueError`, `ImportError` and
`AttributeError` are all caught, logged, and turned into `None`. -/
def resolveHandler (env : Env) (ref : String) : Option Handler :=
  match rsplitColon ref with
  | none => none
  | some (modulePath, funcName) =>
    match env.modules modulePath with
    | none => none
    | some unit => unit funcName

/-- The handler value read out of a command dict is passed to
`resolve_handler`, which calls `.rsplit` on it; on a non-string value that
raises `AttributeError`, which the same `except` clause converts to `None`. -/
def resolveHandlerJson (env : Env) (j : Json) : Option Handler :=
  match j with
  | .str h => resolveHandler env h
  | _ => none

/-- `module_data.get("commands", [])` in `dispatch`. -/
def getCommands (d : Dict) : List Json :=
  match dictFind d "commands" with
  | some (Json.arr xs) => xs
  | _ => []

/-- The module-lookup loop of `dispatch`: scan registry values in order;
within one entry compare `module_name` first, then `short_name`, breaking
at the first entry where either matches. -/
def findModule (tok : String) : Registry → Option Dict
  | [] => none
  | (_, d) :: rest =>
    if jsonEqStr (dictGet d "module_name") tok then some d
    else if jsonEqStr (dictGet d "short_name") tok then some d
    else findModule tok rest

/-- An entry matches a token when its `module_name` or its `short_name`
equals the token. -/
def entryMatches (tok : String) (d : Dict) : Bool :=
  jsonEqStr (dictGet d "module_name") tok || jsonEqStr (dictGet d "short_name") tok

/-- The command-lookup loop of `dispatch`: first command dict in the
module's command list whose `name` equals the selected command token. -/
def findCommand (c : String) : List Json → Option Dict
  | [] => none
  | Json.obj cmd :: rest =>
    if jsonEqStr (dictGet cmd "name") c then some cmd else findCommand c rest
  | _ :: rest => findCommand c rest

/-- `CLIManager.dispatch` over a loaded registry snapshot: gate on a truthy
module token, look the module up, gate on a truthy command token, look the
command up, resolve its handler, invoke it, and convert the outcome to an
exit code exactly as the Python `try`/`except` does. -/
def dispatch (env : Env) (r : Registry) (ns : ParsedArgs) : Int :=
  match ns.module with
  | none => 1
  | some tok =>
    if tok = "" then 1
    else
      match findModule tok r with
      | none => 1
      | some moduleData =>
        match ns.command with
        | none => 1
        | some c =>
          if c = "" then 1
          else
            match findCommand c (getCommands moduleData) with
            | none => 1
            | some cmdData =>
              match resolveHandlerJson env (dictGet cmdData "handler") with
              | none => 1
              | some handler =>
                match handler ns with
                | .raises => 1
                | .returns .pynone => 0
                | .returns v =>
                  match pyToInt v with
                  | some n => n
                  | none => 1

/-- Registry lookup as `get_registry()[key]` sees it. -/
def registryLookup (r : Registry) (k : String) : Option Dict :=
  dictFind r k

/-- The truthy (non-null, non-empty) short name stored in a registry entry,
if any. -/
def truthyShort (d : Dict) : Option String :=
  match dictGet d "short_name" with
  | Json.str s => if s = "" then none else some s
  | _ => none

/-- No two distinct registry entries carry the same truthy short name. -/
def shortUniqInv (r : Registry) : Prop :=
  r.Pairwise (fun a b => truthyShort a.2 = none ∨ truthyShort a.2 ≠ truthyShort b.2)

/-- Concrete registry entry for the dispatch-precedence analysis: a module
named `alpha` whose short name is `beta`. -/
def c1dA : Dict := ModuleRegistration.to_dict { module_name := "alpha", short_name := some "beta" }

/-- Concrete registry entry for the dispatch-precedence analysis: a module
named `beta` with a `run` command. -/
def c1dB : Dict := ModuleRegistration.to_dict
  { module_name := "beta",
    commands := [{ name := "run", help := "", handler := "json:dumps" }] }

/-- Registry in which an earlier entry's short name equals a later entry's
module name. -/
def c1Registry : Registry := [("alpha", c1dA), ("beta", c1dB)]

/-- Import environment in which `json:dumps` resolves to a handler that
returns the integer 7. -/
def c1Env : Env :=
  ⟨fun m =>
    if m = "json" then
      some (fun f => if f = "dumps" then some (fun _ => .returns (.pyint 7)) else none)
    else none⟩

theorem dictFind_dictSet_self {α : Type} (r : List (String × α)) (k : String) (v : α) :
    dictFind (dictSet r k v) k = some v := by
  induction r with
  | nil => simp [dictSet, dictFind]
  | cons e rest ih =>
    obtain ⟨k', v'⟩ := e
    by_cases h : k' = k
    · simp [dictSet, h, dictFind]
    · simp [dictSet, h, dictFind, ih]

theorem dictSet_idem {α : Type} (r : List (String × α)) (k : String) (v : α) :
    dictSet (dictSet r k v) k v = dictSet r k v := by
  induction r with
  | nil => simp [dictSet]
  | cons e rest ih =>
    obtain ⟨k', v'⟩ := e
    by_cases h : k' = k
    · simp [dictSet, h]
    · simp [dictSet, h, ih]

theorem mem_dictSet {α : Type} {e : String × α} {r : List (String × α)} {k : String} {v : α}
    (h : e ∈ dictSet r k v) : e ∈ r ∨ e = (k, v) := by
  induction r with
  | nil => simp [dictSet] at h; right; exact h
  | cons e' rest ih =>
    obtain ⟨k', v'⟩ := e'
    by_cases hk : k' = k
    · simp [dictSet, hk] at h
      rcases h with h | h
      · right; exact h
      · left; exact List.mem_cons_of_mem _ h
    · simp [dictSet, hk] at h
      rcases h with h | h
      · left; simp [h]
      · rcases ih h with h' | h'
        · left; exact List.mem_cons_of_mem _ h'
        · right; exact h'

theorem mem_keys_dictSet {α : Type} {r : List (String × α)} {k k' : String} {v : α}
    (h : k' ∈ (dictSet r k v).map Prod.fst) : k' ∈ r.map Prod.fst ∨ k' = k := by
  rcases List.mem_map.1 h with ⟨e, he, hfst⟩
  rcases mem_dictSet he with h' | h'
  · left; exact hfst ▸ List.mem_map_of_mem Prod.fst h'
  · right; rw [← hfst, h']

theorem map_fst_dictSet {α : Type} (r : List (String × α)) (k : String) (v : α) :
    (dictSet r k v).map Prod.fst
      = if k ∈ r.map Prod.fst then r.map Prod.fst else r.map Prod.fst ++ [k] := by
  induction r with
  | nil => simp [dictSet]
  | cons e rest ih =>
    obtain ⟨k', v'⟩ := e
    by_cases hk : k' = k
    · simp [dictSet, hk]
    · have hne : ¬(k = k') := fun he => hk he.symm
      by_cases hmem : k ∈ rest.map Prod.fst
      · simp [dictSet, hk, ih, hmem, List.mem_cons, hne]
      · simp [dictSet, hk, ih, hmem, List.mem_cons, hne]

theorem keysNodup_dictSet {α : Type} {r : List (String × α)} (k : String) (v : α)
    (h : keysNodup r) : keysNodup (dictSet r k v) := by
  unfold keysNodup at h ⊢
  rw [map_fst_dictSet]
  by_cases hmem : k ∈ r.map Prod.fst
  · rw [if_pos hmem]; exact h
  · rw [if_neg hmem]
    simp [List.nodup_append, h, hmem]

theorem countKey_eq_zero {α : Type} {r : List (String × α)} {k : String}
    (h : k ∉ r.map Prod.fst) : countKey r k = 0 := by
  induction r with
  | nil => rfl
  | cons e rest ih =>
    simp only [List.map_cons, List.mem_cons] at h
    push_neg at h
    have hne : ¬(e.1 = k) := fun he => h.1 he.symm
    simp only [countKey, List.filter_cons]
    simp [hne]
    intro a b hab heq
    exact h.2 (heq ▸ List.mem_map_of_mem Prod.fst hab)

theorem countKey_dictSet {α : Type} {r : List (String × α)} {k : String} (v : α)
    (h : keysNodup r) : countKey (dictSet r k v) k = 1 := by
  induction r with
  | nil => simp [dictSet, countKey, List.filter_cons]
  | cons e rest ih =>
    obtain ⟨k', v'⟩ := e
    unfold keysNodup at h
    simp only [List.map_cons, List.nodup_cons] at h
    by_cases hk : k' = k
    · simp only [dictSet, if_pos hk]
      have h0 : countKey rest k = 0 := countKey_eq_zero (hk ▸ h.1)
      simp [countKey, List.filter_cons] at h0 ⊢
      exact h0
    · simp only [dictSet, if_neg hk]
      have := ih h.2
      simp [countKey, List.filter_cons, hk] at this ⊢
      exact this

theorem pairwise_dictSet {R : (String × Dict) → (String × Dict) → Prop}
    {r : Registry} {k : String} {v : Dict}
    (hnd : keysNodup r) (hp : r.Pairwise R)
    (hcompat : ∀ e ∈ r, e.1 ≠ k → R e (k, v) ∧ R (k, v) e) :
    (dictSet r k v).Pairwise R := by
  induction r with
  | nil =>
    simp only [dictSet]
    refine List.Pairwise.cons ?_ List.Pairwise.nil
    intro b hb; simp at hb
  | cons e rest ih =>
    obtain ⟨k0, d0⟩ := e
    unfold keysNodup at hnd
    simp only [List.map_cons, List.nodup_cons] at hnd
    rcases hp with _ | ⟨hhead, htail⟩
    by_cases hk : k0 = k
    · simp only [dictSet, if_pos hk]
      refine List.Pairwise.cons ?_ htail
      intro e' he'
      have hne : e'.1 ≠ k := by
        intro heq
        exact hnd.1 (hk ▸ heq ▸ List.mem_map_of_mem Prod.fst he')
      exact (hcompat e' (List.mem_cons_of_mem _ he') hne).2
    · simp only [dictSet, if_neg hk]
      refine List.Pairwise.cons ?_
        (ih hnd.2 htail (fun e' he' h' => hcompat e' (List.mem_cons_of_mem _ he') h'))
      intro e' he'
      rcases mem_dictSet he' with h' | h'
      · exact hhead e' h'
      · rw [h']
        exact (hcompat (k0, d0) (List.mem_cons_self _ _) hk).1

theorem shortNameConflict_dictSet (key s : String) (r : Registry) (v : Dict) :
    shortNameConflict key s (dictSet r key v) = shortNameConflict key s r := by
  induction r with
  | nil => simp [dictSet, shortNameConflict]
  | cons e rest ih =>
    obtain ⟨k0, d0⟩ := e
    by_cases hk : k0 = key
    · simp [dictSet, hk, shortNameConflict]
    · by_cases hcond : k0 ≠ key ∧ jsonEqStr (dictGet d0 "short_name") s
      · simp [dictSet, hk, shortNameConflict, hcond]
      · simp [dictSet, hk, shortNameConflict, hcond, ih]

theorem shortNameConflict_false_iff {key s : String} {r : Registry} :
    shortNameConflict key s r = false ↔
      ∀ e ∈ r, e.1 ≠ key → ¬ jsonEqStr (dictGet e.2 "short_name") s := by
  induction r with
  | nil => simp [shortNameConflict]
  | cons e rest ih =>
    obtain ⟨k0, d0⟩ := e
    simp only [shortNameConflict]
    by_cases hcond : k0 ≠ key ∧ jsonEqStr (dictGet d0 "short_name") s
    · rw [if_pos hcond]
      simp only [List.mem_cons]
      constructor
      · intro hfalse; cases hfalse
      · intro hall
        exact absurd hcond.2 (hall (k0, d0) (Or.inl rfl) hcond.1)
    · rw [if_neg hcond, ih]
      rw [not_and] at hcond
      constructor
      · intro hall e he hne
        rcases List.mem_cons.1 he with rfl | he'
        · exact hcond hne
        · exact hall e he' hne
      · intro hall e he hne
        exact hall e (List.mem_cons_of_mem _ he) hne

theorem to_dict_module_name (m : ModuleRegistration) :
    dictGet m.to_dict "module_name" = Json.str m.module_name := rfl

theorem to_dict_short_name (m : ModuleRegistration) :
    dictGet m.to_dict "short_name" = optStrJson m.short_name := rfl

theorem to_dict_description (m : ModuleRegistration) :
    dictGet m.to_dict "description" = Json.str m.description := rfl

theorem to_dict_commands (m : ModuleRegistration) :
    dictGet m.to_dict "commands"
      = Json.arr (m.commands.map (fun c => Json.obj c.to_dict)) := rfl

theorem registerModule_fst (r : Registry) (reg : ModuleRegistration) :
    (registerModule r reg).1 = dictSet r reg.module_name (clearIfConflict r reg).to_dict := rfl

theorem registerModule_snd (r : Registry) (reg : ModuleRegistration) :
    (registerModule r reg).2 = clearIfConflict r reg := rfl

theorem clearIfConflict_cases (r : Registry) (reg : ModuleRegistration) :
    clearIfConflict r reg = reg
      ∨ clearIfConflict r reg = { reg with short_name := none } := by
  unfold clearIfConflict
  rcases reg.short_name with _ | s
  · left; rfl
  · by_cases h1 : s = ""
    · left; simp [h1]
    · by_cases h2 : shortNameConflict reg.module_name s r
      · right; simp [h1, h2]
      · left; simp [h1, h2]

theorem clearIfConflict_module_name (r : Registry) (reg : ModuleRegistration) :
    (clearIfConflict r reg).module_name = reg.module_name := by
  rcases clearIfConflict_cases r reg with h | h <;> rw [h]

theorem clearIfConflict_description (r : Registry) (reg : ModuleRegistration) :
    (clearIfConflict r reg).description = reg.description := by
  rcases clearIfConflict_cases r reg with h | h <;> rw [h]

theorem clearIfConflict_commands (r : Registry) (reg : ModuleRegistration) :
    (clearIfConflict r reg).commands = reg.commands := by
  rcases clearIfConflict_cases r reg with h | h <;> rw [h]

theorem truthyShort_eq_some {d : Dict} {u : String} (h : truthyShort d = some u) :
    dictGet d "short_name" = Json.str u ∧ u ≠ "" := by
  unfold truthyShort at h
  cases hj : dictGet d "short_name" with
  | str s =>
    rw [hj] at h
    by_cases hs : s = ""
    · simp [hs] at h
    · simp [hs] at h
      subst h
      exact ⟨rfl, hs⟩
  | null => rw [hj] at h; simp at h
  | bool b => rw [hj] at h; simp at h
  | num n => rw [hj] at h; simp at h
  | arr xs => rw [hj] at h; simp at h
  | obj fs => rw [hj] at h; simp at h

theorem truthyShort_to_dict_eq_none {m : ModuleRegistration}
    (h : ∀ s, m.short_name = some s → s = "") :
    truthyShort m.to_dict = none := by
  unfold truthyShort
  rw [to_dict_short_name]
  rcases hs : m.short_name with _ | s
  · rfl
  · simp [optStrJson, h s hs]

theorem truthyShort_to_dict_eq_some {m : ModuleRegistration} {s : String}
    (hs : m.short_name = some s) (hne : s ≠ "") :
    truthyShort m.to_dict = some s := by
  unfold truthyShort
  rw [to_dict_short_name, hs]
  simp [optStrJson, hne]

theorem splitLastColon_eq_none {l : List Char} :
    splitLastColon l = none ↔ ':' ∉ l := by
  induction l with
  | nil => simp [splitLastColon]
  | cons c rest ih =>
    simp only [splitLastColon]
    cases h : splitLastColon rest with
    | some p =>
      have hmem : ':' ∈ rest := by
        by_contra hno
        rw [← ih] at hno
        rw [h] at hno
        cases hno
      simp [List.mem_cons, hmem]
    | none =>
      have hno : ':' ∉ rest := ih.1 h
      by_cases hc : c = ':'
      · simp [hc]
      · have : ¬(':' = c) := fun he => hc he.symm
        simp [hc, List.mem_cons, this, hno]

theorem splitLastColon_eq_some {l a b : List Char}
    (h : splitLastColon l = some (a, b)) : l = a ++ ':' :: b ∧ ':' ∉ b := by
  induction l generalizing a b with
  | nil => cases h
  | cons c rest ih =>
    simp only [splitLastColon] at h
    cases hr : splitLastColon rest with
    | some p =>
      obtain ⟨p1, p2⟩ := p
      rw [hr] at h
      cases h
      obtain ⟨heq, hnot⟩ := ih hr
      exact ⟨by rw [heq]; rfl, hnot⟩
    | none =>
      rw [hr] at h
      by_cases hc : c = ':'
      · rw [if_pos hc] at h
        cases h
        exact ⟨by rw [hc]; rfl, splitLastColon_eq_none.1 hr⟩
      · rw [if_neg hc] at h
        cases h

/-- C1, counterexample: the claim says a `module_name` match takes precedence
over any `short_name` match across the whole registry. In `c1Registry` the
entry keyed `beta` has `module_name = "beta"`, yet `dispatch`'s lookup loop
resolves the token `beta` to the earlier entry `c1dA` (whose `short_name` is
`beta`), and dispatching `beta run` exits 1 because `c1dA` has no `run`
command, while the module-name entry alone would have produced exit code 7. -/
theorem c1_shortname_shadows_module_name :
    findModule "beta" c1Registry = some c1dA
    ∧ dictGet c1dA "module_name" = Json.str "alpha"
    ∧ dictFind c1Registry "beta" = some c1dB
    ∧ dictGet c1dB "module_name" = Json.str "beta"
    ∧ dispatch c1Env c1Registry ⟨some "beta", some "run"⟩ = 1
    ∧ dispatch c1Env [("beta", c1dB)] ⟨some "beta", some "run"⟩ = 7 :=
  ⟨rfl, rfl, rfl, rfl, rfl, rfl⟩

/-- C1, amended: dispatch resolves the selected token to the first registry
entry in iteration order whose `module_name` or `short_name` equals the
token (within one entry `module_name` is compared first); an earlier entry's
`short_name` match therefore takes precedence over a later entry's
`module_name` match. -/
theorem c1_findModule_first_matching_entry (tok : String) (r : Registry) :
    findModule tok r = (r.find? (fun p => entryMatches tok p.2)).map Prod.snd := by
  induction r with
  | nil => rfl
  | cons e rest ih =>
    obtain ⟨k, d⟩ := e
    by_cases h1 : jsonEqStr (dictGet d "module_name") tok
    · simp [findModule, entryMatches, List.find?_cons, h1]
    · by_cases h2 : jsonEqStr (dictGet d "short_name") tok
      · simp [findModule, entryMatches, List.find?_cons, h1, h2]
      · simp [findModule, entryMatches, List.find?_cons, h1, h2, ih]

/-- C2, counterexample: with the empty string as short name, the truthiness
guard `if registration.short_name:` skips the conflict scan, so two distinct
modules `a` and `b` both end up stored with the non-null short name `""`,
refuting the claim that no two distinct registered modules ever share a
non-null short name. -/
theorem c2_empty_short_name_shared :
    dictFind ((registerModule (registerModule [] { module_name := "a", short_name := some "" }).1
        { module_name := "b", short_name := some "" }).1) "a"
      = some (ModuleRegistration.to_dict { module_name := "a", short_name := some "" })
    ∧ dictFind ((registerModule (registerModule [] { module_name := "a", short_name := some "" }).1
        { module_name := "b", short_name := some "" }).1) "b"
      = some (ModuleRegistration.to_dict { module_name := "b", short_name := some "" })
    ∧ dictGet (ModuleRegistration.to_dict { module_name := "a", short_name := some "" }) "short_name"
      = Json.str ""
    ∧ dictGet (ModuleRegistration.to_dict { module_name := "b", short_name := some "" }) "short_name"
      = Json.str ""
    ∧ Json.str "" ≠ Json.null :=
  ⟨rfl, rfl, rfl, rfl, by simp⟩

/-- C2, amended: uniqueness of truthy (non-null, non-empty) short names is an
invariant preserved by every registration on a well-formed registry, and in
the concrete A/B scenario with a non-empty short name `x`, A's stored entry
retains `x` while B's stored entry has `short_name` null. -/
theorem c2_short_name_uniqueness_preserved :
    (∀ (r : Registry) (reg : ModuleRegistration),
        keysNodup r → shortUniqInv r → shortUniqInv (registerModule r reg).1)
    ∧ (∀ (x mA mB dsA dsB : String) (cA cB : List Command), x ≠ "" → mA ≠ mB →
        dictFind ((registerModule (registerModule [] ⟨mA, some x, dsA, cA⟩).1
            ⟨mB, some x, dsB, cB⟩).1) mA
          = some (ModuleRegistration.to_dict ⟨mA, some x, dsA, cA⟩)
        ∧ dictFind ((registerModule (registerModule [] ⟨mA, some x, dsA, cA⟩).1
            ⟨mB, some x, dsB, cB⟩).1) mB
          = some (ModuleRegistration.to_dict ⟨mB, none, dsB, cB⟩)) := by
  constructor
  · intro r reg hnd hp
    show shortUniqInv (dictSet r reg.module_name (clearIfConflict r reg).to_dict)
    unfold shortUniqInv at hp ⊢
    apply pairwise_dictSet hnd hp
    intro e he hne
    rcases hts : truthyShort (clearIfConflict r reg).to_dict with _ | s
    · refine ⟨?_, Or.inl rfl⟩
      rcases hte : truthyShort e.2 with _ | u
      · exact Or.inl rfl
      · exact Or.inr (by simp)
    · -- the stored entry kept a truthy short name s, so the conflict scan
      -- found no other entry carrying s
      obtain ⟨hget, hsne⟩ := truthyShort_eq_some hts
      rw [to_dict_short_name] at hget
      have hshort : (clearIfConflict r reg).short_name = some s := by
        rcases hcs : (clearIfConflict r reg).short_name with _ | t
        · rw [hcs] at hget; cases hget
        · rw [hcs] at hget
          unfold optStrJson at hget
          cases hget
          rfl
      rcases clearIfConflict_cases r reg with hcc | hcc
      · have hregshort : reg.short_name = some s := by rw [← hcc]; exact hshort
        have hcf : shortNameConflict reg.module_name s r = false := by
          by_cases hc : shortNameConflict reg.module_name s r
          · exfalso
            have hcleared : clearIfConflict r reg = { reg with short_name := none } := by
              unfold clearIfConflict
              rw [hregshort]
              simp [hsne, hc]
            have hcontra := congrArg ModuleRegistration.short_name (hcc.symm.trans hcleared)
            rw [hregshort] at hcontra
            cases hcontra
          · simpa using hc
        have hall := shortNameConflict_false_iff.1 hcf
        have hniq : truthyShort e.2 ≠ some s := by
          intro hu
          obtain ⟨hgete, _⟩ := truthyShort_eq_some hu
          have := hall e he hne
          rw [hgete] at this
          exact this (by simp [jsonEqStr])
        exact ⟨Or.inr hniq, Or.inr (Ne.symm hniq)⟩
      · exfalso
        have := congrArg ModuleRegistration.short_name hcc
        rw [hshort] at this
        cases this
  · intro x mA mB dsA dsB cA cB hx hmn
    have h1 : clearIfConflict [] ⟨mA, some x, dsA, cA⟩ = ⟨mA, some x, dsA, cA⟩ := by
      unfold clearIfConflict shortNameConflict
      simp [hx]
    have hr1 : (registerModule [] ⟨mA, some x, dsA, cA⟩).1
        = [(mA, ModuleRegistration.to_dict ⟨mA, some x, dsA, cA⟩)] := by
      rw [registerModule_fst, h1]
      rfl
    have hc : shortNameConflict mB x
        [(mA, ModuleRegistration.to_dict ⟨mA, some x, dsA, cA⟩)] = true := by
      unfold shortNameConflict
      rw [to_dict_short_name]
      simp [optStrJson, jsonEqStr, hmn]
    have h2 : clearIfConflict [(mA, ModuleRegistration.to_dict ⟨mA, some x, dsA, cA⟩)]
        ⟨mB, some x, dsB, cB⟩ = ⟨mB, none, dsB, cB⟩ := by
      unfold clearIfConflict
      simp [hx, hc]
    have hr2 : (registerModule (registerModule [] ⟨mA, some x, dsA, cA⟩).1
        ⟨mB, some x, dsB, cB⟩).1
        = [(mA, ModuleRegistration.to_dict ⟨mA, some x, dsA, cA⟩),
           (mB, ModuleRegistration.to_dict ⟨mB, none, dsB, cB⟩)] := by
      rw [registerModule_fst, hr1, h2]
      simp [dictSet, hmn]
    rw [hr2]
    refine ⟨?_, ?_⟩
    · simp [dictFind]
    · simp [dictFind, hmn]

/-- C2, witness: the invariant holds after registering `A` over the empty
registry, and in the concrete `A`/`B` scenario with short name `x`, `A`'s
stored entry keeps `x` while `B`'s is stored with `short_name` null. -/
theorem c2_short_name_uniqueness_preserved_witness :
    shortUniqInv (registerModule [] ⟨"A", some "x", "", []⟩).1
    ∧ dictFind ((registerModule (registerModule [] ⟨"A", some "x", "", []⟩).1
        ⟨"B", some "x", "", []⟩).1) "A"
      = some (ModuleRegistration.to_dict ⟨"A", some "x", "", []⟩)
    ∧ dictFind ((registerModule (registerModule [] ⟨"A", some "x", "", []⟩).1
        ⟨"B", some "x", "", []⟩).1) "B"
      = some (ModuleRegistration.to_dict ⟨"B", none, "", []⟩) :=
  ⟨c2_short_name_uniqueness_preserved.1 [] ⟨"A", some "x", "", []⟩
      (by unfold keysNodup; simp) (by unfold shortUniqInv; exact List.Pairwise.nil),
   (c2_short_name_uniqueness_preserved.2 "x" "A" "B" "" "" [] []
      (by decide) (by decide)).1,
   (c2_short_name_uniqueness_preserved.2 "x" "A" "B" "" "" [] []
      (by decide) (by decide)).2⟩

/-- C3: once module, command and handler resolve, dispatch maps the handler
outcome to an exit code: an exception becomes 1, a `None` return becomes 0,
and an integer return value becomes that integer; dispatch always yields a
definite integer and never re-raises the handler's exception. -/
theorem c3_dispatch_exit_codes (env : Env) (r : Registry) (ns : ParsedArgs)
    (tok c : String) (moduleData cmdData : Dict) (handler : Handler)
    (hmod : ns.module = some tok) (htok : tok ≠ "")
    (hfm : findModule tok r = some moduleData)
    (hcmd : ns.command = some c) (hctok : c ≠ "")
    (hfc : findCommand c (getCommands moduleData) = some cmdData)
    (hrh : resolveHandlerJson env (dictGet cmdData "handler") = some handler) :
    (handler ns = .raises → dispatch env r ns = 1)
    ∧ (handler ns = .returns .pynone → dispatch env r ns = 0)
    ∧ (∀ n : Int, handler ns = .returns (.pyint n) → dispatch env r ns = n) := by
  refine ⟨?_, ?_, ?_⟩
  · intro hres
    simp [dispatch, hmod, htok, hfm, hcmd, hctok, hfc, hrh, hres]
  · intro hres
    simp [dispatch, hmod, htok, hfm, hcmd, hctok, hfc, hrh, hres]
  · intro n hres
    simp [dispatch, hmod, htok, hfm, hcmd, hctok, hfc, hrh, hres, pyToInt]

/-- C3, witness: a registry with one module `m` holding a `run` command whose
handler returns 3; dispatching `m run` exits with code 3, and the raising and
`None`-returning variants exit 1 and 0. -/
theorem c3_dispatch_exit_codes_witness :
    dispatch ⟨fun m => if m = "json" then
        some (fun f => if f = "dumps" then some (fun _ => .returns (.pyint 3)) else none)
      else none⟩
      [("m", ModuleRegistration.to_dict
        { module_name := "m", commands := [{ name := "run", help := "", handler := "json:dumps" }] })]
      ⟨some "m", some "run"⟩ = 3 :=
  (c3_dispatch_exit_codes
    ⟨fun m => if m = "json" then
        some (fun f => if f = "dumps" then some (fun _ => .returns (.pyint 3)) else none)
      else none⟩
    [("m", ModuleRegistration.to_dict
      { module_name := "m", commands := [{ name := "run", help := "", handler := "json:dumps" }] })]
    ⟨some "m", some "run"⟩ "m" "run"
    (ModuleRegistration.to_dict
      { module_name := "m", commands := [{ name := "run", help := "", handler := "json:dumps" }] })
    (Command.to_dict { name := "run", help := "", handler := "json:dumps" })
    (fun _ => .returns (.pyint 3))
    rfl (by decide) rfl rfl (by decide) rfl rfl).2.2 3 rfl

/-- C4: the claim says `_load_registry` returns an empty registry and never
raises for every bad file state. It does so for a missing file, JSON-malformed
text and an I/O failure, but a backing file whose bytes do not decode as text
makes `json.load` raise `UnicodeDecodeError`, which is neither
`json.JSONDecodeError` nor `IOError` and therefore propagates to the caller. -/
theorem c4_load_registry_error_cases :
    loadRegistry FileState.absent = Except.ok []
    ∧ (∀ s, loadRegistry (FileState.malformed s) = Except.ok [])
    ∧ loadRegistry FileState.unreadable = Except.ok []
    ∧ loadRegistry FileState.undecodable = Except.error PyExc.unicodeDecodeError :=
  ⟨rfl, fun _ => rfl, rfl, rfl⟩

/-- C5: re-registration replaces a module's entry wholesale: after
registering `m` with description `dsA`/commands `cA` and again with `dsB`/`cB`,
the registry maps `m` to a record carrying exactly the second description and
the second command list, and holds exactly one entry keyed `m`. -/
theorem c5_reregistration_replaces_wholesale (r : Registry) (hnd : keysNodup r)
    (m dsA dsB : String) (sA sB : Option String) (cA cB : List Command) :
    (∃ D : Dict,
      dictFind ((registerModule (registerModule r ⟨m, sA, dsA, cA⟩).1 ⟨m, sB, dsB, cB⟩).1) m
          = some D
        ∧ dictGet D "description" = Json.str dsB
        ∧ dictGet D "commands" = Json.arr (cB.map (fun c => Json.obj c.to_dict)))
    ∧ countKey ((registerModule (registerModule r ⟨m, sA, dsA, cA⟩).1 ⟨m, sB, dsB, cB⟩).1) m
        = 1 := by
  rw [registerModule_fst, registerModule_fst]
  constructor
  · refine ⟨(clearIfConflict (dictSet r m (clearIfConflict r ⟨m, sA, dsA, cA⟩).to_dict)
      ⟨m, sB, dsB, cB⟩).to_dict, ?_, ?_, ?_⟩
    · exact dictFind_dictSet_self _ _ _
    · rw [to_dict_description, clearIfConflict_description]
    · rw [to_dict_commands, clearIfConflict_commands]
  · exact countKey_dictSet _ (keysNodup_dictSet _ _ hnd)

/-- C5, witness: the double registration of `m` over the empty registry. -/
theorem c5_reregistration_replaces_wholesale_witness :
    (∃ D : Dict,
      dictFind ((registerModule (registerModule [] ⟨"m", none, "v1", []⟩).1
          ⟨"m", none, "v2", []⟩).1) "m" = some D
        ∧ dictGet D "description" = Json.str "v2"
        ∧ dictGet D "commands" = Json.arr (([] : List Command).map (fun c => Json.obj c.to_dict)))
    ∧ countKey ((registerModule (registerModule [] ⟨"m", none, "v1", []⟩).1
        ⟨"m", none, "v2", []⟩).1) "m" = 1 :=
  c5_reregistration_replaces_wholesale [] (by unfold keysNodup; simp)
    "m" "v1" "v2" none none [] []

/-- C6: registering the same `ModuleRegistration` object twice in a row
leaves the registry in the same final state as registering it once, from any
prior registry state; the second call sees the object as the first call left
it (its `short_name` may have been cleared in place), and a module's own
stored entry is excluded from the conflict scan. -/
theorem c6_register_idempotent (r : Registry) (reg : ModuleRegistration) :
    (registerModule (registerModule r reg).1 (registerModule r reg).2).1
      = (registerModule r reg).1 := by
  rw [registerModule_snd, registerModule_fst, registerModule_fst]
  have hkey : (clearIfConflict r reg).module_name = reg.module_name :=
    clearIfConflict_module_name r reg
  have hsame : clearIfConflict (dictSet r reg.module_name (clearIfConflict r reg).to_dict)
      (clearIfConflict r reg) = clearIfConflict r reg := by
    rcases hs : reg.short_name with _ | s
    · have h1 : clearIfConflict r reg = reg := by unfold clearIfConflict; rw [hs]
      rw [h1]
      unfold clearIfConflict
      rw [hs]
    · by_cases hse : s = ""
      · have h1 : clearIfConflict r reg = reg := by
          unfold clearIfConflict; rw [hs]; simp [hse]
        rw [h1]
        unfold clearIfConflict
        rw [hs]
        simp [hse]
      · by_cases hc : shortNameConflict reg.module_name s r
        · have h1 : clearIfConflict r reg = { reg with short_name := none } := by
            unfold clearIfConflict; rw [hs]; simp [hse, hc]
          rw [h1]
          unfold clearIfConflict
          rfl
        · have h1 : clearIfConflict r reg = reg := by
            unfold clearIfConflict; rw [hs]; simp [hse, hc]
          rw [h1]
          unfold clearIfConflict
          rw [hs]
          simp [hse]
          intro hc2
          rw [shortNameConflict_dictSet] at hc2
          exact absurd hc2 hc
  rw [hkey, hsame]
  exact dictSet_idem r reg.module_name (clearIfConflict r reg).to_dict

theorem not_isNull_iff {v : Json} : (!v.isNull) = true ↔ v ≠ Json.null := by
  cases v <;> simp [Json.isNull]

/-- C7: `resolve_handler` splits the reference at the rightmost colon into
`(locator, symbol)` — the suffix after the split point contains no further
colon — and returns the explicit not-found result `none` when there is no
separator, when the locator does not import, or when the symbol is absent
from the imported unit, instead of propagating the exception. -/
theorem c7_resolve_handler_failures (env : Env) (ref : String) :
    ((':' ∉ ref.data) → resolveHandler env ref = none)
    ∧ (∀ a b : List Char, splitLastColon ref.data = some (a, b) →
        ref.data = a ++ ':' :: b ∧ ':' ∉ b)
    ∧ (∀ m f : String, rsplitColon ref = some (m, f) →
        (env.modules m = none → resolveHandler env ref = none)
        ∧ (∀ unit, env.modules m = some unit → unit f = none →
            resolveHandler env ref = none)) := by
  refine ⟨?_, ?_, ?_⟩
  · intro hno
    have hs : splitLastColon ref.data = none := splitLastColon_eq_none.2 hno
    unfold resolveHandler rsplitColon
    rw [hs]
    rfl
  · intro a b h
    exact splitLastColon_eq_some h
  · intro m f hsplit
    constructor
    · intro hmod
      unfold resolveHandler
      rw [hsplit]
      simp [hmod]
    · intro unit hmod hattr
      unfold resolveHandler
      rw [hsplit]
      simp [hmod, hattr]

/-- C7, witness: the reference `a:b:c` splits at its last colon, and with the
hierarchical locator `os.path` in an environment with no importable units,
resolution returns `none`. -/
theorem c7_resolve_handler_failures_witness :
    resolveHandler ⟨fun _ => none⟩ "os.path:join" = none ∧
    splitLastColon "a:b:c".data = some ("a:b".data, "c".data) :=
  ⟨((c7_resolve_handler_failures ⟨fun _ => none⟩ "os.path:join").2.2
      "os.path" "join" (by decide)).1 rfl,
   by decide⟩

/-- C8, counterexample: the claim says a stored record contains a key exactly
when the field is not null, but `ModuleRegistration.to_dict` always emits the
`short_name` key, so a module registered without a short name stores
`"short_name": null`. -/
theorem c8_short_name_null_still_serialized :
    dictFind (ModuleRegistration.to_dict { module_name := "m" }) "short_name"
      = some Json.null
    ∧ ("short_name", Json.null) ∈ ModuleRegistration.to_dict { module_name := "m" } :=
  ⟨rfl, List.Mem.tail _ (List.Mem.head _)⟩

/-- C8, amended: null-stripping happens only at the argument level — a
`CommandArg` serialization contains a pair exactly when that field pair is
non-null — while `Command` and `ModuleRegistration` serializations always
contain all of their keys (so a null `short_name` is stored explicitly). -/
theorem c8_serialization_key_presence :
    (∀ (a : CommandArg) (k : String) (v : Json),
        ((k, v) ∈ a.to_dict ↔ (k, v) ∈ a.asdictPairs ∧ v ≠ Json.null))
    ∧ (∀ c : Command, c.to_dict.map Prod.fst = ["name", "help", "handler", "args"])
    ∧ (∀ m : ModuleRegistration,
        m.to_dict.map Prod.fst = ["module_name", "short_name", "description", "commands"]) := by
  refine ⟨?_, fun c => rfl, fun m => rfl⟩
  intro a k v
  unfold CommandArg.to_dict
  rw [List.mem_filter]
  exact and_congr_right (fun _ => not_isNull_iff)

/-- C9: `_save_registry` opens the target with mode `"w"`, which truncates
`commands.json` in place before `json.dump` writes the new text, so a
concurrent reader (or a crash between the two steps) observes the truncated
empty file, which is not valid JSON and makes a concurrent
`_load_registry` fail its parse — the save is not atomic. -/
theorem c9_save_truncates_before_write (finalText : String) :
    "" ∈ saveObservableContents finalText
    ∧ openAndParse (FileState.malformed "") = Except.error PyExc.jsonDecodeError :=
  ⟨List.Mem.head _, rfl⟩

/-- C10: when the incoming registration's short name is truthy and conflicts
with another registered module's stored short name, `register_module` clears
the `short_name` field of the very registration object the caller passed in
(the second component of the model), leaving `module_name`, `description`
and `commands` untouched. -/
theorem c10_register_mutates_caller_registration (r : Registry)
    (reg : ModuleRegistration) (s : String)
    (hs : reg.short_name = some s) (hne : s ≠ "")
    (hc : shortNameConflict reg.module_name s r = true) :
    (registerModule r reg).2.short_name = none
    ∧ (registerModule r reg).2.module_name = reg.module_name
    ∧ (registerModule r reg).2.description = reg.description
    ∧ (registerModule r reg).2.commands = reg.commands := by
  rw [registerModule_snd]
  have h1 : clearIfConflict r reg = { reg with short_name := none } := by
    unfold clearIfConflict
    rw [hs]
    simp [hne, hc]
  rw [h1]
  exact ⟨rfl, rfl, rfl, rfl⟩

/-- C10, witness: registering `B` with short name `x` while `A` already holds
`x` clears the caller's object in place. -/
theorem c10_register_mutates_caller_registration_witness :
    (registerModule [("A", ModuleRegistration.to_dict { module_name := "A", short_name := some "x" })]
      { module_name := "B", short_name := some "x", description := "d",
        commands := [{ name := "go", help := "h", handler := "p:f" }] }).2.short_name = none
    ∧ (registerModule [("A", ModuleRegistration.to_dict { module_name := "A", short_name := some "x" })]
      { module_name := "B", short_name := some "x", description := "d",
        commands := [{ name := "go", help := "h", handler := "p:f" }] }).2.description = "d" :=
  ⟨(c10_register_mutates_caller_registration
      [("A", ModuleRegistration.to_dict { module_name := "A", short_name := some "x" })]
      { module_name := "B", short_name := some "x", description := "d",
        commands := [{ name := "go", help := "h", handler := "p:f" }] }
      "x" rfl (by decide) rfl).1,
   (c10_register_mutates_caller_registration
      [("A", ModuleRegistration.to_dict { module_name := "A", short_name := some "x" })]
      { module_name := "B", short_name := some "x", description := "d",
        commands := [{ name := "go", help := "h", handler := "p:f" }] }
      "x" rfl (by decide) rfl).2.2.1⟩

end CliManager
